import Mathlib

/-!
Verification development for the staffing-optimization engine
(`src/forecast_model.py` and `config/settings.py`).

Machine floats of the Python source are embedded as exact rationals (`ℚ`);
Python `int()` truncation is `pyInt`; a calendar date enters the engine only
through `date.weekday()` and is embedded as a weekday `Fin 7` (Monday = 0).
-/

/-- Python `int()` applied to a rational: truncation toward zero. -/
def pyInt (q : ℚ) : ℤ := if q < 0 then -(⌊-q⌋) else ⌊q⌋

/-- `StaffingConfig` from `forecast_model.py` (lines 20-46): the parameter set read
by the cost model and the staffing search.  `SKILL_REQUIREMENTS` keeps only the
required fractions (the dict values, in insertion order); `ABSENTEEISM_RATES` is
indexed by weekday, Monday = 0. -/
structure StaffingConfig where
  REGULAR_RATE : ℚ
  OVERTIME_RATE : ℚ
  TEMP_RATE : ℚ
  MIN_STAFF_PER_SHIFT : ℕ
  MAX_STAFF_PER_SHIFT : ℕ
  BREAK_COVERAGE_FACTOR : ℚ
  TARGET_SERVICE_LEVEL : ℚ
  UNDERSTAFFING_PENALTY : ℚ
  SKILL_REQUIREMENTS : List ℚ
  ABSENTEEISM_RATES : Fin 7 → ℚ

/-- The class-attribute values of `StaffingConfig` (the only configuration the
repository ever instantiates). -/
def StaffingConfig.default : StaffingConfig where
  REGULAR_RATE := 18.50
  OVERTIME_RATE := 27.75
  TEMP_RATE := 22.00
  MIN_STAFF_PER_SHIFT := 2
  MAX_STAFF_PER_SHIFT := 25
  BREAK_COVERAGE_FACTOR := 0.2
  TARGET_SERVICE_LEVEL := 0.98
  UNDERSTAFFING_PENALTY := 150
  SKILL_REQUIREMENTS := [0.30, 0.15, 0.10, 0.60]
  ABSENTEEISM_RATES := ![0.08, 0.06, 0.07, 0.09, 0.12, 0.15, 0.18]

/-- `productivity_rates.get(order_type, 18)` from `calculate_total_cost`
(lines 276-277). -/
def productivity_rate (order_type : String) : ℚ :=
  if order_type = "E-commerce" then 18
  else if order_type = "B2B" then 22
  else if order_type = "Express" then 12
  else 18

lemma productivity_rate_ecommerce : productivity_rate "E-commerce" = 18 := rfl

lemma productivity_rate_b2b : productivity_rate "B2B" = 22 := rfl

lemma productivity_rate_express : productivity_rate "Express" = 12 := rfl

/-- The dict returned by `CostOptimizer.calculate_total_cost` (lines 316-325). -/
structure CostBreakdown where
  total_cost : ℚ
  regular_cost : ℚ
  overtime_cost : ℚ
  understaffing_cost : ℚ
  skills_penalty : ℚ
  overtime_hours : ℚ
  service_level : ℚ
  capacity_utilization : ℚ
deriving DecidableEq

/-- `CostOptimizer.calculate_skills_penalty` (lines 327-339): for each required
fraction, `required = max(1, int(staff_count*pct))`, `available =
max(1, int(staff_count*0.6))`, adding `(required-available)*50` when short. -/
def calculate_skills_penalty (cfg : StaffingConfig) (staff_count : ℕ) : ℚ :=
  cfg.SKILL_REQUIREMENTS.foldl
    (fun penalty required_pct =>
      let required_count : ℤ := max 1 (pyInt ((staff_count : ℚ) * required_pct))
      let available_count : ℤ := max 1 (pyInt ((staff_count : ℚ) * 0.6))
      if available_count < required_count then
        penalty + ((required_count - available_count : ℤ) : ℚ) * 50
      else penalty)
    0

/-- `effective_staff = staff_count * (1 - absenteeism_rate)` (line 282). -/
def effective_staff (cfg : StaffingConfig) (staff_count : ℕ) (date : Fin 7) : ℚ :=
  (staff_count : ℚ) * (1 - cfg.ABSENTEEISM_RATES date)

/-- `productive_staff = effective_staff * (1 - BREAK_COVERAGE_FACTOR)` (line 285). -/
def productive_staff (cfg : StaffingConfig) (staff_count : ℕ) (date : Fin 7) : ℚ :=
  effective_staff cfg staff_count date * (1 - cfg.BREAK_COVERAGE_FACTOR)

/-- `total_capacity = productive_staff * base_productivity` (line 288); the spec
calls this quantity `base_capacity`. -/
def total_capacity (cfg : StaffingConfig) (staff_count : ℕ) (order_type : String)
    (date : Fin 7) : ℚ :=
  productive_staff cfg staff_count date * productivity_rate order_type

/-- Overtime hours (lines 295-301): when demand exceeds base capacity,
`min(staff_count * 4, shortage / base_productivity)`, else `0`. -/
def overtime_hours (cfg : StaffingConfig) (staff_count : ℕ) (forecast_volume : ℚ)
    (order_type : String) (date : Fin 7) : ℚ :=
  if total_capacity cfg staff_count order_type date < forecast_volume then
    min ((staff_count : ℚ) * 4)
      ((forecast_volume - total_capacity cfg staff_count order_type date) /
        productivity_rate order_type)
  else 0

/-- `final_capacity = total_capacity + overtime_hours * base_productivity` (line 304). -/
def final_capacity (cfg : StaffingConfig) (staff_count : ℕ) (forecast_volume : ℚ)
    (order_type : String) (date : Fin 7) : ℚ :=
  total_capacity cfg staff_count order_type date +
    overtime_hours cfg staff_count forecast_volume order_type date *
      productivity_rate order_type

/-- `CostOptimizer.calculate_total_cost` (lines 272-325).  The `shift` argument is
accepted and, as in the source, never read. -/
def calculate_total_cost (cfg : StaffingConfig) (staff_count : ℕ) (forecast_volume : ℚ)
    (order_type : String) (date : Fin 7) (shift : String) : CostBreakdown :=
  let tc := total_capacity cfg staff_count order_type date
  let regular_cost := ((staff_count : ℚ) * 8) * cfg.REGULAR_RATE
  let oh := overtime_hours cfg staff_count forecast_volume order_type date
  let overtime_cost := if tc < forecast_volume then oh * cfg.OVERTIME_RATE else 0
  let fc := final_capacity cfg staff_count forecast_volume order_type date
  let understaffing_cost :=
    if fc < forecast_volume then (forecast_volume - fc) * cfg.UNDERSTAFFING_PENALTY
    else 0
  let sp := calculate_skills_penalty cfg staff_count
  { total_cost := regular_cost + overtime_cost + understaffing_cost + sp
    regular_cost := regular_cost
    overtime_cost := overtime_cost
    understaffing_cost := understaffing_cost
    skills_penalty := sp
    overtime_hours := oh
    service_level := if 0 < forecast_volume then min 1 (fc / forecast_volume) else 1
    capacity_utilization := if 0 < fc then forecast_volume / fc else 0 }

/-- A row of the DataFrame built by `AdvancedForecaster.forecast_demand`
(lines 250-258).  `Date` holds the weekday (the only date component the
optimizer consumes). -/
structure ForecastRecord where
  Date : Fin 7
  Shift : String
  OrderType : String
  ForecastVolume : ℤ
  LowerBound : ℤ
  UpperBound : ℤ
  Uncertainty : ℚ
deriving DecidableEq

/-- Record emission of `forecast_demand` (lines 245-258), parameterized by the raw
regression output `prediction` (`model.predict(...)[0]`), which the shallow
embedding treats as an arbitrary rational:
`uncertainty = prediction * 0.15`, `ForecastVolume = max(0, int(prediction))`,
`LowerBound = max(0, int(prediction - uncertainty))`,
`UpperBound = max(0, int(prediction + uncertainty))`. -/
def mkForecastRecord (date : Fin 7) (shift order_type : String) (prediction : ℚ) :
    ForecastRecord :=
  let uncertainty := prediction * 0.15
  { Date := date
    Shift := shift
    OrderType := order_type
    ForecastVolume := max 0 (pyInt prediction)
    LowerBound := max 0 (pyInt (prediction - uncertainty))
    UpperBound := max 0 (pyInt (prediction + uncertainty))
    Uncertainty := uncertainty }

/-- The dict returned by `CostOptimizer.optimize_shift_staffing` (lines 384-391):
the named summary keys plus the merged best `CostBreakdown`. -/
structure OptimizationResult where
  OptimalStaff : ℕ
  TotalCost : ℚ
  ServiceLevel : ℚ
  OvertimeHours : ℚ
  CapacityUtilization : ℚ
  breakdown : CostBreakdown
deriving DecidableEq

/-- The mutable loop state of `optimize_shift_staffing` (lines 351-353):
`best_cost = float('inf')` is `none`, `best_metrics = None` is `none`. -/
structure SearchState where
  best_staff : ℕ
  best_cost : Option ℚ
  best_metrics : Option CostBreakdown
deriving DecidableEq

/-- `cost < best_cost` where `best_cost` may be the initial infinity. -/
def ltInf (c : ℚ) : Option ℚ → Bool
  | none => true
  | some b => decide (c < b)

/-- One iteration of the scan loops (lines 358-382): evaluate the cost at `s`,
and when `feasible s` holds and the cost strictly improves, record `s` as best. -/
def scanStep (feasible : ℕ → Bool) (cost : ℕ → CostBreakdown)
    (st : SearchState) (s : ℕ) : SearchState :=
  let cm := cost s
  if feasible s then
    if ltInf cm.total_cost st.best_cost then ⟨s, some cm.total_cost, some cm⟩ else st
  else st

/-- `range(MIN_STAFF_PER_SHIFT, MAX_STAFF_PER_SHIFT + 1)` (lines 358-359). -/
def staffRange (cfg : StaffingConfig) : List ℕ :=
  List.range' cfg.MIN_STAFF_PER_SHIFT
    (cfg.MAX_STAFF_PER_SHIFT + 1 - cfg.MIN_STAFF_PER_SHIFT)

/-- The cost evaluation the search performs for a candidate staff count: the
forecast's `UpperBound` is the demand input (`optimization_volume`, line 356). -/
def costAt (cfg : StaffingConfig) (row : ForecastRecord) (s : ℕ) : CostBreakdown :=
  calculate_total_cost cfg s (row.UpperBound : ℚ) row.OrderType row.Date row.Shift

/-- The feasibility test of the first pass (line 366):
`service_level >= TARGET_SERVICE_LEVEL`. -/
def feasibleAt (cfg : StaffingConfig) (row : ForecastRecord) (s : ℕ) : Bool :=
  decide (cfg.TARGET_SERVICE_LEVEL ≤ (costAt cfg row s).service_level)

/-- The initial loop state (lines 351-353): `best_staff = MIN_STAFF_PER_SHIFT`,
`best_cost = inf`, `best_metrics = None`. -/
def searchInit (cfg : StaffingConfig) : SearchState :=
  ⟨cfg.MIN_STAFF_PER_SHIFT, none, none⟩

/-- The first scan (lines 358-370): only candidates meeting the service-level
target may become the best. -/
def passOne (cfg : StaffingConfig) (row : ForecastRecord) : SearchState :=
  (staffRange cfg).foldl (scanStep (feasibleAt cfg row) (costAt cfg row)) (searchInit cfg)

/-- The fallback scan (lines 373-382): the same range, minimum cost regardless of
service level, continuing from the first pass's state. -/
def passTwo (cfg : StaffingConfig) (row : ForecastRecord) (st : SearchState) :
    SearchState :=
  (staffRange cfg).foldl (scanStep (fun _ => true) (costAt cfg row)) st

/-- The state from which the result dict is built: the fallback scan runs only
when the first pass found no feasible candidate (`if best_metrics is None`). -/
def finalState (cfg : StaffingConfig) (row : ForecastRecord) : SearchState :=
  match (passOne cfg row).best_metrics with
  | none => passTwo cfg row (passOne cfg row)
  | some _ => passOne cfg row

/-- Building the returned dict (lines 384-391); `none` exactly when the Python
code would raise (`best_metrics` still `None`, only possible for an empty staff
range). -/
def mkResultFrom (st : SearchState) : Option OptimizationResult :=
  match st.best_metrics, st.best_cost with
  | some m, some bc =>
      some { OptimalStaff := st.best_staff
             TotalCost := bc
             ServiceLevel := m.service_level
             OvertimeHours := m.overtime_hours
             CapacityUtilization := m.capacity_utilization
             breakdown := m }
  | _, _ => none

/-- `CostOptimizer.optimize_shift_staffing` (lines 341-391). -/
def optimize_shift_staffing (cfg : StaffingConfig) (row : ForecastRecord) :
    Option OptimizationResult :=
  mkResultFrom (finalState cfg row)

/-- Usable rows of one segment processed by `prepare_features` then `dropna`
(lines 164-165, 183): `Volume_Lag7` (`shift(7)`) is undefined on a segment's
first 7 rows and `Volume_MA7` (`rolling(7).mean()`) on its first 6, so of `m`
chronological rows, `m - 7` survive. -/
def usable_rows (m : ℕ) : ℕ := m - 7

/-- The training decision of `AdvancedForecaster.train_models` (lines 185-201):
given each `(shift, order_type)` group key with its usable (post-`dropna`) row
count, a model is fitted unless `len(group) < 20`.  The regression fit itself is
abstracted; only which segments obtain a model is retained. -/
def train_models (segments : List ((String × String) × ℕ)) : List (String × String) :=
  (segments.filter (fun g => !decide (g.2 < 20))).map (fun g => g.1)

/-- The business/operational fields of `StaffingSettings` (`config/settings.py`,
lines 38-47). -/
structure StaffingSettings where
  regular_hourly_rate : ℚ
  overtime_multiplier : ℚ
  temp_worker_rate : ℚ
  target_service_level : ℚ
  understaffing_penalty : ℚ
  min_staff_per_shift : ℤ
  max_staff_per_shift : ℤ
  break_coverage_factor : ℚ
deriving DecidableEq

/-- Construction of `StaffingSettings`: the pydantic model declares plain type
annotations and no field validators or constrained types, so construction from
already-typed values stores them unconditionally and never fails. -/
def mkStaffingSettings (regular_hourly_rate overtime_multiplier temp_worker_rate
    target_service_level understaffing_penalty : ℚ)
    (min_staff_per_shift max_staff_per_shift : ℤ)
    (break_coverage_factor : ℚ) : Except String StaffingSettings :=
  .ok { regular_hourly_rate := regular_hourly_rate
        overtime_multiplier := overtime_multiplier
        temp_worker_rate := temp_worker_rate
        target_service_level := target_service_level
        understaffing_penalty := understaffing_penalty
        min_staff_per_shift := min_staff_per_shift
        max_staff_per_shift := max_staff_per_shift
        break_coverage_factor := break_coverage_factor }

/-! ## Generic facts about the scan loops -/

lemma pairwise_lt_range1 : ∀ (n s : ℕ), (List.range' s n).Pairwise (· < ·) := by
  intro n
  induction n with
  | zero => intro s; simp
  | succ k ih =>
      intro s
      rw [List.range'_succ]
      refine List.Pairwise.cons ?_ (ih (s + 1))
      intro t ht
      rcases List.mem_range'_1.mp ht with ⟨h1, _⟩
      omega

lemma pairwise_lt_staffRange (cfg : StaffingConfig) :
    (staffRange cfg).Pairwise (· < ·) :=
  pairwise_lt_range1 _ _

lemma mem_staffRange {cfg : StaffingConfig} {s : ℕ} :
    s ∈ staffRange cfg ↔
      cfg.MIN_STAFF_PER_SHIFT ≤ s ∧ s ≤ cfg.MAX_STAFF_PER_SHIFT ∧
        cfg.MIN_STAFF_PER_SHIFT ≤ cfg.MAX_STAFF_PER_SHIFT := by
  unfold staffRange
  rw [List.mem_range'_1]
  omega

lemma scanStep_cases (p : ℕ → Bool) (c : ℕ → CostBreakdown) (st : SearchState) (s : ℕ) :
    (scanStep p c st s = st ∧
      (p s = true → ∃ b, st.best_cost = some b ∧ b ≤ (c s).total_cost)) ∨
    (p s = true ∧ scanStep p c st s = ⟨s, some (c s).total_cost, some (c s)⟩ ∧
      ∀ b, st.best_cost = some b → (c s).total_cost < b) := by
  unfold scanStep
  by_cases hp : p s = true
  · by_cases hl : ltInf (c s).total_cost st.best_cost = true
    · right
      refine ⟨hp, by simp [hp, hl], ?_⟩
      intro b hb
      rw [hb] at hl
      simpa [ltInf] using hl
    · left
      have hl' : ltInf (c s).total_cost st.best_cost = false := by
        simpa using hl
      refine ⟨by simp [hp, hl'], ?_⟩
      intro _
      rcases hc : st.best_cost with _ | b
      · rw [hc] at hl'
        simp [ltInf] at hl'
      · refine ⟨b, rfl, ?_⟩
        rw [hc] at hl'
        simpa [ltInf, not_lt] using hl'
  · left
    have hp' : p s = false := by simpa using hp
    exact ⟨by simp [hp'], by simp [hp']⟩

lemma foldl_best_cost_le (p : ℕ → Bool) (c : ℕ → CostBreakdown) :
    ∀ (l : List ℕ) (st : SearchState) (b : ℚ),
      st.best_cost = some b →
      ∃ b', (l.foldl (scanStep p c) st).best_cost = some b' ∧ b' ≤ b := by
  intro l
  induction l with
  | nil => intro st b hb; exact ⟨b, hb, le_refl b⟩
  | cons a t ih =>
      intro st b hb
      rw [List.foldl_cons]
      rcases scanStep_cases p c st a with ⟨heq, _⟩ | ⟨_, heq, hlt⟩
      · rw [heq]; exact ih st b hb
      · rw [heq]
        obtain ⟨b', h1, h2⟩ :=
          ih ⟨a, some (c a).total_cost, some (c a)⟩ (c a).total_cost rfl
        exact ⟨b', h1, le_of_lt (lt_of_le_of_lt h2 (hlt b hb))⟩

lemma foldl_le_of_mem (p : ℕ → Bool) (c : ℕ → CostBreakdown) :
    ∀ (l : List ℕ) (st : SearchState) (s : ℕ),
      s ∈ l → p s = true →
      ∃ b', (l.foldl (scanStep p c) st).best_cost = some b' ∧
        b' ≤ (c s).total_cost := by
  intro l
  induction l with
  | nil => intro st s h; exact absurd h (List.not_mem_nil s)
  | cons a t ih =>
      intro st s hmem hp
      rw [List.foldl_cons]
      rcases List.mem_cons.mp hmem with rfl | hmem'
      · rcases scanStep_cases p c st s with ⟨heq, hge⟩ | ⟨_, heq, _⟩
        · rw [heq]
          obtain ⟨b, hb, hble⟩ := hge hp
          obtain ⟨b', h1, h2⟩ := foldl_best_cost_le p c t st b hb
          exact ⟨b', h1, le_trans h2 hble⟩
        · rw [heq]
          obtain ⟨b', h1, h2⟩ := foldl_best_cost_le p c t
            ⟨s, some (c s).total_cost, some (c s)⟩ (c s).total_cost rfl
          exact ⟨b', h1, h2⟩
      · exact ih _ s hmem' hp

lemma foldl_scan_characterization (p : ℕ → Bool) (c : ℕ → CostBreakdown) :
    ∀ (l : List ℕ) (st : SearchState), l.Pairwise (· < ·) →
      l.foldl (scanStep p c) st = st ∨
      ∃ s, s ∈ l ∧ p s = true ∧
        (l.foldl (scanStep p c) st).best_staff = s ∧
        (l.foldl (scanStep p c) st).best_cost = some (c s).total_cost ∧
        (l.foldl (scanStep p c) st).best_metrics = some (c s) ∧
        (∀ t ∈ l, p t = true → t < s → (c s).total_cost < (c t).total_cost) ∧
        (∀ b, st.best_cost = some b → (c s).total_cost < b) := by
  intro l
  induction l with
  | nil => intro st _; left; rfl
  | cons a t ih =>
      intro st hpw
      have hpw' : t.Pairwise (· < ·) := hpw.of_cons
      have hhead : ∀ u ∈ t, a < u := fun u hu => (List.pairwise_cons.mp hpw).1 u hu
      rw [List.foldl_cons]
      rcases scanStep_cases p c st a with ⟨heq, hge⟩ | ⟨hpa, heq, hlt⟩
      · rw [heq]
        rcases ih st hpw' with h | ⟨s, hs, hps, h1, h2, h3, h4, h5⟩
        · left; exact h
        · right
          refine ⟨s, List.mem_cons_of_mem a hs, hps, h1, h2, h3, ?_, h5⟩
          intro u hu hpu hus
          rcases List.mem_cons.mp hu with rfl | hu'
          · obtain ⟨b, hb, hba⟩ := hge hpu
            exact lt_of_lt_of_le (h5 b hb) hba
          · exact h4 u hu' hpu hus
      · rw [heq]
        rcases ih ⟨a, some (c a).total_cost, some (c a)⟩ hpw' with h | ⟨s, hs, hps, h1, h2, h3, h4, h5⟩
        · right
          rw [h]
          refine ⟨a, List.mem_cons_self a t, hpa, rfl, rfl, rfl, ?_, ?_⟩
          · intro u hu hpu hua
            rcases List.mem_cons.mp hu with rfl | hu'
            · exact absurd hua (lt_irrefl u)
            · exact absurd hua (not_lt.mpr (le_of_lt (hhead u hu')))
          · exact hlt
        · right
          refine ⟨s, List.mem_cons_of_mem a hs, hps, h1, h2, h3, ?_, ?_⟩
          · intro u hu hpu hus
            rcases List.mem_cons.mp hu with rfl | hu'
            · exact h5 (c u).total_cost rfl
            · exact h4 u hu' hpu hus
          · intro b hb
            exact lt_trans (h5 (c a).total_cost rfl) (hlt b hb)

lemma foldl_scan_id (p : ℕ → Bool) (c : ℕ → CostBreakdown) :
    ∀ (l : List ℕ) (st : SearchState),
      (∀ s ∈ l, p s = false) → l.foldl (scanStep p c) st = st := by
  intro l
  induction l with
  | nil => intro st _; rfl
  | cons a t ih =>
      intro st h
      rw [List.foldl_cons]
      have ha : p a = false := h a (List.mem_cons_self a t)
      have hstep : scanStep p c st a = st := by unfold scanStep; simp [ha]
      rw [hstep]
      exact ih st fun s hs => h s (List.mem_cons_of_mem a hs)

lemma mkResultFrom_of {st : SearchState} {m : CostBreakdown} {bc : ℚ}
    (h1 : st.best_metrics = some m) (h2 : st.best_cost = some bc) :
    mkResultFrom st = some
      { OptimalStaff := st.best_staff
        TotalCost := bc
        ServiceLevel := m.service_level
        OvertimeHours := m.overtime_hours
        CapacityUtilization := m.capacity_utilization
        breakdown := m } := by
  unfold mkResultFrom
  rw [h1, h2]

lemma passOne_def (cfg : StaffingConfig) (r : ForecastRecord) :
    passOne cfg r =
      (staffRange cfg).foldl (scanStep (feasibleAt cfg r) (costAt cfg r))
        (searchInit cfg) := rfl

lemma passTwo_def (cfg : StaffingConfig) (r : ForecastRecord) (st : SearchState) :
    passTwo cfg r st =
      (staffRange cfg).foldl (scanStep (fun _ => true) (costAt cfg r)) st := rfl

/-- Full characterization of the search: with a non-degenerate staff range the
optimizer returns the cost breakdown of some in-range staff count; when the
feasible set is nonempty, that staff count is a feasible cost minimizer that
strictly beats every smaller feasible candidate; when the feasible set is empty,
it is a global cost minimizer strictly beating every smaller candidate. -/
lemma optimize_characterization (cfg : StaffingConfig) (r : ForecastRecord)
    (h : cfg.MIN_STAFF_PER_SHIFT ≤ cfg.MAX_STAFF_PER_SHIFT) :
    ∃ s ∈ staffRange cfg,
      optimize_shift_staffing cfg r = some
        { OptimalStaff := s
          TotalCost := (costAt cfg r s).total_cost
          ServiceLevel := (costAt cfg r s).service_level
          OvertimeHours := (costAt cfg r s).overtime_hours
          CapacityUtilization := (costAt cfg r s).capacity_utilization
          breakdown := costAt cfg r s } ∧
      ((∃ t ∈ staffRange cfg, feasibleAt cfg r t = true) →
        feasibleAt cfg r s = true ∧
        (∀ t ∈ staffRange cfg, feasibleAt cfg r t = true →
          (costAt cfg r s).total_cost ≤ (costAt cfg r t).total_cost) ∧
        (∀ t ∈ staffRange cfg, feasibleAt cfg r t = true → t < s →
          (costAt cfg r s).total_cost < (costAt cfg r t).total_cost)) ∧
      ((∀ t ∈ staffRange cfg, feasibleAt cfg r t = false) →
        (∀ t ∈ staffRange cfg,
          (costAt cfg r s).total_cost ≤ (costAt cfg r t).total_cost) ∧
        (∀ t ∈ staffRange cfg, t < s →
          (costAt cfg r s).total_cost < (costAt cfg r t).total_cost)) := by
  have hmem_min : cfg.MIN_STAFF_PER_SHIFT ∈ staffRange cfg :=
    mem_staffRange.mpr ⟨le_refl _, h, h⟩
  have hpw := pairwise_lt_staffRange cfg
  by_cases hfe : ∃ t ∈ staffRange cfg, feasibleAt cfg r t = true
  · obtain ⟨t0, ht0, hpt0⟩ := hfe
    rcases foldl_scan_characterization (feasibleAt cfg r) (costAt cfg r)
        (staffRange cfg) (searchInit cfg) hpw with
      hid | ⟨s, hs, hps, h1, h2, h3, h4, _⟩
    · exfalso
      obtain ⟨b', hb', _⟩ := foldl_le_of_mem (feasibleAt cfg r) (costAt cfg r)
        (staffRange cfg) (searchInit cfg) t0 ht0 hpt0
      rw [hid] at hb'
      simp [searchInit] at hb'
    · rw [← passOne_def] at h1 h2 h3
      have hfin : finalState cfg r = passOne cfg r := by
        unfold finalState
        rw [h3]
      refine ⟨s, hs, ?_, ?_, ?_⟩
      · unfold optimize_shift_staffing
        rw [hfin, mkResultFrom_of h3 h2, h1]
      · intro _
        refine ⟨hps, ?_, ?_⟩
        · intro t ht hpt
          obtain ⟨b', hb', hble⟩ := foldl_le_of_mem (feasibleAt cfg r) (costAt cfg r)
            (staffRange cfg) (searchInit cfg) t ht hpt
          rw [← passOne_def, h2] at hb'
          obtain rfl := Option.some.inj hb'
          exact hble
        · exact h4
      · intro hall
        exact absurd hps (by simp [hall s hs])
  · have hall : ∀ t ∈ staffRange cfg, feasibleAt cfg r t = false := by
      intro t ht
      by_contra hne
      exact hfe ⟨t, ht, by simpa using hne⟩
    have hid1 : passOne cfg r = searchInit cfg := by
      rw [passOne_def]
      exact foldl_scan_id _ _ _ _ hall
    have hnone : (passOne cfg r).best_metrics = none := by rw [hid1]; rfl
    have hfin2 : finalState cfg r =
        (staffRange cfg).foldl (scanStep (fun _ => true) (costAt cfg r))
          (searchInit cfg) := by
      unfold finalState
      rw [hnone, hid1, passTwo_def]
    rcases foldl_scan_characterization (fun _ => true) (costAt cfg r)
        (staffRange cfg) (searchInit cfg) hpw with
      hid2 | ⟨s, hs, _, h1, h2, h3, h4, _⟩
    · exfalso
      obtain ⟨b', hb', _⟩ := foldl_le_of_mem (fun _ => true) (costAt cfg r)
        (staffRange cfg) (searchInit cfg) cfg.MIN_STAFF_PER_SHIFT hmem_min rfl
      rw [hid2] at hb'
      simp [searchInit] at hb'
    · rw [← hfin2] at h1 h2 h3
      refine ⟨s, hs, ?_, ?_, ?_⟩
      · unfold optimize_shift_staffing
        rw [mkResultFrom_of h3 h2, h1]
      · intro hfe'
        obtain ⟨t0, ht0, hpt0⟩ := hfe'
        exact absurd hpt0 (by simp [hall t0 ht0])
      · intro _
        constructor
        · intro t ht
          obtain ⟨b', hb', hble⟩ := foldl_le_of_mem (fun _ => true) (costAt cfg r)
            (staffRange cfg) (searchInit cfg) t ht rfl
          rw [← hfin2, h2] at hb'
          obtain rfl := Option.some.inj hb'
          exact hble
        · intro t ht hts
          exact h4 t ht rfl hts

/-! ## Claim theorems -/

lemma default_min_le_max :
    StaffingConfig.default.MIN_STAFF_PER_SHIFT ≤
      StaffingConfig.default.MAX_STAFF_PER_SHIFT := by
  norm_num [StaffingConfig.default]

/-- C1: For every forecast record and the default configuration, if some
staff_count in [MIN_STAFF_PER_SHIFT, MAX_STAFF_PER_SHIFT] has a cost evaluation
at the record's UpperBound (the demand input the search uses) whose
service_level meets TARGET_SERVICE_LEVEL, then `optimize_shift_staffing`
returns a result whose service_level meets TARGET_SERVICE_LEVEL. -/
theorem optimize_meets_target_of_feasible (r : ForecastRecord)
    (h : ∃ s : ℕ, StaffingConfig.default.MIN_STAFF_PER_SHIFT ≤ s ∧
      s ≤ StaffingConfig.default.MAX_STAFF_PER_SHIFT ∧
      StaffingConfig.default.TARGET_SERVICE_LEVEL ≤
        (costAt StaffingConfig.default r s).service_level) :
    ∃ res, optimize_shift_staffing StaffingConfig.default r = some res ∧
      StaffingConfig.default.TARGET_SERVICE_LEVEL ≤ res.ServiceLevel := by
  obtain ⟨s0, hmin, hmax, hserv⟩ := h
  obtain ⟨s, hsmem, hopt, hfeas, _⟩ :=
    optimize_characterization StaffingConfig.default r default_min_le_max
  have hex : ∃ t ∈ staffRange StaffingConfig.default,
      feasibleAt StaffingConfig.default r t = true :=
    ⟨s0, mem_staffRange.mpr ⟨hmin, hmax, default_min_le_max⟩,
      by unfold feasibleAt; exact decide_eq_true hserv⟩
  obtain ⟨hfs, -, -⟩ := hfeas hex
  refine ⟨_, hopt, ?_⟩
  have hfs' : StaffingConfig.default.TARGET_SERVICE_LEVEL ≤
      (costAt StaffingConfig.default r s).service_level := by
    unfold feasibleAt at hfs
    exact of_decide_eq_true hfs
  exact hfs'

/-- A forecast record on which the default-config search finds a feasible
staffing level (Monday, E-commerce, UpperBound 170). -/
def recFeasible : ForecastRecord := ⟨0, "Morning", "E-commerce", 150, 130, 170, 22.5⟩

theorem optimize_meets_target_of_feasible_witness :
    (∃ s : ℕ, StaffingConfig.default.MIN_STAFF_PER_SHIFT ≤ s ∧
      s ≤ StaffingConfig.default.MAX_STAFF_PER_SHIFT ∧
      StaffingConfig.default.TARGET_SERVICE_LEVEL ≤
        (costAt StaffingConfig.default recFeasible s).service_level) ∧
    (∃ res, optimize_shift_staffing StaffingConfig.default recFeasible = some res ∧
      StaffingConfig.default.TARGET_SERVICE_LEVEL ≤ res.ServiceLevel) := by
  have h : ∃ s : ℕ, StaffingConfig.default.MIN_STAFF_PER_SHIFT ≤ s ∧
      s ≤ StaffingConfig.default.MAX_STAFF_PER_SHIFT ∧
      StaffingConfig.default.TARGET_SERVICE_LEVEL ≤
        (costAt StaffingConfig.default recFeasible s).service_level := by
    refine ⟨25, by norm_num [StaffingConfig.default], by norm_num [StaffingConfig.default], ?_⟩
    norm_num [costAt, calculate_total_cost, final_capacity, overtime_hours,
      total_capacity, productive_staff, effective_staff, productivity_rate_ecommerce,
      recFeasible, StaffingConfig.default, min_def]
  exact ⟨h, optimize_meets_target_of_feasible recFeasible h⟩

/-- C2: For every forecast record and every configuration with
MIN_STAFF_PER_SHIFT ≤ MAX_STAFF_PER_SHIFT, the OptimalStaff returned by
`optimize_shift_staffing` lies in [MIN_STAFF_PER_SHIFT, MAX_STAFF_PER_SHIFT]. -/
theorem optimize_staff_within_bounds (cfg : StaffingConfig) (r : ForecastRecord)
    (h : cfg.MIN_STAFF_PER_SHIFT ≤ cfg.MAX_STAFF_PER_SHIFT) :
    ∃ res, optimize_shift_staffing cfg r = some res ∧
      cfg.MIN_STAFF_PER_SHIFT ≤ res.OptimalStaff ∧
      res.OptimalStaff ≤ cfg.MAX_STAFF_PER_SHIFT := by
  obtain ⟨s, hsmem, hopt, -, -⟩ := optimize_characterization cfg r h
  obtain ⟨h1, h2, -⟩ := mem_staffRange.mp hsmem
  exact ⟨_, hopt, h1, h2⟩

theorem optimize_staff_within_bounds_witness :
    StaffingConfig.default.MIN_STAFF_PER_SHIFT ≤
      StaffingConfig.default.MAX_STAFF_PER_SHIFT ∧
    (∃ res, optimize_shift_staffing StaffingConfig.default recFeasible = some res ∧
      StaffingConfig.default.MIN_STAFF_PER_SHIFT ≤ res.OptimalStaff ∧
      res.OptimalStaff ≤ StaffingConfig.default.MAX_STAFF_PER_SHIFT) :=
  ⟨default_min_le_max,
    optimize_staff_within_bounds StaffingConfig.default recFeasible default_min_le_max⟩

/-- C5: For every forecast record, if no staff count in the configured range
reaches the target service level at the record's UpperBound, the search still
returns a result — the staff count of globally minimal total cost over the whole
range, the smallest such staff count among cost ties — and the same fewest-staff
tie-break governs the feasible pass. -/
theorem optimize_fallback_min_cost_tiebreak :
    (∀ r : ForecastRecord,
      (∀ s ∈ staffRange StaffingConfig.default,
        (costAt StaffingConfig.default r s).service_level <
          StaffingConfig.default.TARGET_SERVICE_LEVEL) →
      ∃ res, optimize_shift_staffing StaffingConfig.default r = some res ∧
        res.OptimalStaff ∈ staffRange StaffingConfig.default ∧
        res.TotalCost = (costAt StaffingConfig.default r res.OptimalStaff).total_cost ∧
        (∀ s ∈ staffRange StaffingConfig.default,
          res.TotalCost ≤ (costAt StaffingConfig.default r s).total_cost) ∧
        (∀ s ∈ staffRange StaffingConfig.default,
          (costAt StaffingConfig.default r s).total_cost = res.TotalCost →
          res.OptimalStaff ≤ s)) ∧
    (∀ r : ForecastRecord, ∀ s0 ∈ staffRange StaffingConfig.default,
      StaffingConfig.default.TARGET_SERVICE_LEVEL ≤
        (costAt StaffingConfig.default r s0).service_level →
      ∃ res, optimize_shift_staffing StaffingConfig.default r = some res ∧
        res.OptimalStaff ∈ staffRange StaffingConfig.default ∧
        StaffingConfig.default.TARGET_SERVICE_LEVEL ≤
          (costAt StaffingConfig.default r res.OptimalStaff).service_level ∧
        res.TotalCost = (costAt StaffingConfig.default r res.OptimalStaff).total_cost ∧
        (∀ s ∈ staffRange StaffingConfig.default,
          StaffingConfig.default.TARGET_SERVICE_LEVEL ≤
            (costAt StaffingConfig.default r s).service_level →
          res.TotalCost ≤ (costAt StaffingConfig.default r s).total_cost) ∧
        (∀ s ∈ staffRange StaffingConfig.default,
          StaffingConfig.default.TARGET_SERVICE_LEVEL ≤
            (costAt StaffingConfig.default r s).service_level →
          (costAt StaffingConfig.default r s).total_cost = res.TotalCost →
          res.OptimalStaff ≤ s)) := by
  constructor
  · intro r hinf
    obtain ⟨s, hsmem, hopt, -, hinfcase⟩ :=
      optimize_characterization StaffingConfig.default r default_min_le_max
    have hall : ∀ t ∈ staffRange StaffingConfig.default,
        feasibleAt StaffingConfig.default r t = false := by
      intro t ht
      unfold feasibleAt
      exact decide_eq_false (not_le.mpr (hinf t ht))
    obtain ⟨hmin, hstrict⟩ := hinfcase hall
    refine ⟨_, hopt, hsmem, rfl, hmin, ?_⟩
    intro t ht heq
    by_contra hlt
    have h1 := hstrict t ht (not_le.mp hlt)
    rw [heq] at h1
    exact lt_irrefl _ h1
  · intro r s0 hs0mem hs0serv
    obtain ⟨s, hsmem, hopt, hfeascase, -⟩ :=
      optimize_characterization StaffingConfig.default r default_min_le_max
    have hex : ∃ t ∈ staffRange StaffingConfig.default,
        feasibleAt StaffingConfig.default r t = true :=
      ⟨s0, hs0mem, by unfold feasibleAt; exact decide_eq_true hs0serv⟩
    obtain ⟨hfs, hminf, hstrictf⟩ := hfeascase hex
    have hfs' : StaffingConfig.default.TARGET_SERVICE_LEVEL ≤
        (costAt StaffingConfig.default r s).service_level := by
      unfold feasibleAt at hfs
      exact of_decide_eq_true hfs
    refine ⟨_, hopt, hsmem, hfs', rfl, ?_, ?_⟩
    · intro t ht hts
      exact hminf t ht (by unfold feasibleAt; exact decide_eq_true hts)
    · intro t ht hts heq
      by_contra hlt
      have h1 := hstrictf t ht (by unfold feasibleAt; exact decide_eq_true hts)
        (not_le.mp hlt)
      rw [heq] at h1
      exact lt_irrefl _ h1

/-- A forecast record whose UpperBound (2300 Express orders) exceeds what even
25 staff with maximal overtime can cover, so no candidate is feasible. -/
def recInfeasible : ForecastRecord := ⟨0, "Morning", "Express", 2000, 1700, 2300, 300⟩

theorem optimize_fallback_min_cost_tiebreak_witness :
    (∀ s ∈ staffRange StaffingConfig.default,
      (costAt StaffingConfig.default recInfeasible s).service_level <
        StaffingConfig.default.TARGET_SERVICE_LEVEL) ∧
    (∃ res, optimize_shift_staffing StaffingConfig.default recInfeasible = some res ∧
      res.OptimalStaff ∈ staffRange StaffingConfig.default ∧
      res.TotalCost =
        (costAt StaffingConfig.default recInfeasible res.OptimalStaff).total_cost ∧
      (∀ s ∈ staffRange StaffingConfig.default,
        res.TotalCost ≤ (costAt StaffingConfig.default recInfeasible s).total_cost) ∧
      (∀ s ∈ staffRange StaffingConfig.default,
        (costAt StaffingConfig.default recInfeasible s).total_cost = res.TotalCost →
        res.OptimalStaff ≤ s)) ∧
    (25 ∈ staffRange StaffingConfig.default ∧
      StaffingConfig.default.TARGET_SERVICE_LEVEL ≤
        (costAt StaffingConfig.default recFeasible 25).service_level) ∧
    (∃ res, optimize_shift_staffing StaffingConfig.default recFeasible = some res ∧
      res.OptimalStaff ∈ staffRange StaffingConfig.default ∧
      StaffingConfig.default.TARGET_SERVICE_LEVEL ≤
        (costAt StaffingConfig.default recFeasible res.OptimalStaff).service_level ∧
      res.TotalCost =
        (costAt StaffingConfig.default recFeasible res.OptimalStaff).total_cost ∧
      (∀ s ∈ staffRange StaffingConfig.default,
        StaffingConfig.default.TARGET_SERVICE_LEVEL ≤
          (costAt StaffingConfig.default recFeasible s).service_level →
        res.TotalCost ≤ (costAt StaffingConfig.default recFeasible s).total_cost) ∧
      (∀ s ∈ staffRange StaffingConfig.default,
        StaffingConfig.default.TARGET_SERVICE_LEVEL ≤
          (costAt StaffingConfig.default recFeasible s).service_level →
        (costAt StaffingConfig.default recFeasible s).total_cost = res.TotalCost →
        res.OptimalStaff ≤ s)) := by
  have hinf : ∀ s ∈ staffRange StaffingConfig.default,
      (costAt StaffingConfig.default recInfeasible s).service_level <
        StaffingConfig.default.TARGET_SERVICE_LEVEL := by
    intro s hs
    obtain ⟨h1, h2, -⟩ := mem_staffRange.mp hs
    simp only [StaffingConfig.default] at h1 h2
    interval_cases s <;>
      norm_num [costAt, calculate_total_cost, final_capacity, overtime_hours,
        total_capacity, productive_staff, effective_staff, productivity_rate_express,
        recInfeasible, StaffingConfig.default, min_def]
  have hmem25 : (25 : ℕ) ∈ staffRange StaffingConfig.default :=
    mem_staffRange.mpr
      ⟨by norm_num [StaffingConfig.default], by norm_num [StaffingConfig.default],
        default_min_le_max⟩
  have hserv25 : StaffingConfig.default.TARGET_SERVICE_LEVEL ≤
      (costAt StaffingConfig.default recFeasible 25).service_level := by
    norm_num [costAt, calculate_total_cost, final_capacity, overtime_hours,
      total_capacity, productive_staff, effective_staff, productivity_rate_ecommerce,
      recFeasible, StaffingConfig.default, min_def]
  exact ⟨hinf, optimize_fallback_min_cost_tiebreak.1 recInfeasible hinf,
    ⟨hmem25, hserv25⟩,
    optimize_fallback_min_cost_tiebreak.2 recFeasible 25 hmem25 hserv25⟩

/-- C3: For every configuration, positive staff_count, non-negative
forecast_volume, date, shift and order_type, the returned breakdown satisfies
total_cost = regular_cost + overtime_cost + understaffing_cost + skills_penalty
exactly, and service_level = min(1, final_capacity / forecast_volume) when
forecast_volume > 0, else 1. -/
theorem cost_components_sum_and_service_level (cfg : StaffingConfig)
    (staff_count : ℕ) (forecast_volume : ℚ) (order_type shift : String)
    (date : Fin 7) (hs : 0 < staff_count) (hv : 0 ≤ forecast_volume) :
    (calculate_total_cost cfg staff_count forecast_volume order_type date
        shift).total_cost =
      (calculate_total_cost cfg staff_count forecast_volume order_type date
          shift).regular_cost +
        (calculate_total_cost cfg staff_count forecast_volume order_type date
            shift).overtime_cost +
        (calculate_total_cost cfg staff_count forecast_volume order_type date
            shift).understaffing_cost +
        (calculate_total_cost cfg staff_count forecast_volume order_type date
            shift).skills_penalty ∧
    (0 < forecast_volume →
      (calculate_total_cost cfg staff_count forecast_volume order_type date
          shift).service_level =
        min 1 (final_capacity cfg staff_count forecast_volume order_type date /
          forecast_volume)) ∧
    (forecast_volume = 0 →
      (calculate_total_cost cfg staff_count forecast_volume order_type date
          shift).service_level = 1) := by
  refine ⟨rfl, ?_, ?_⟩
  · intro hpos
    show (if 0 < forecast_volume then
        min 1 (final_capacity cfg staff_count forecast_volume order_type date /
          forecast_volume) else 1) = _
    rw [if_pos hpos]
  · intro hzero
    show (if 0 < forecast_volume then
        min 1 (final_capacity cfg staff_count forecast_volume order_type date /
          forecast_volume) else 1) = 1
    rw [if_neg (by rw [hzero]; exact lt_irrefl 0)]

theorem cost_components_sum_and_service_level_witness :
    0 < 10 ∧ (0 : ℚ) ≤ 150 ∧
    ((calculate_total_cost StaffingConfig.default 10 150 "E-commerce" 3
        "Morning").total_cost =
      (calculate_total_cost StaffingConfig.default 10 150 "E-commerce" 3
          "Morning").regular_cost +
        (calculate_total_cost StaffingConfig.default 10 150 "E-commerce" 3
            "Morning").overtime_cost +
        (calculate_total_cost StaffingConfig.default 10 150 "E-commerce" 3
            "Morning").understaffing_cost +
        (calculate_total_cost StaffingConfig.default 10 150 "E-commerce" 3
            "Morning").skills_penalty ∧
    ((0 : ℚ) < 150 →
      (calculate_total_cost StaffingConfig.default 10 150 "E-commerce" 3
          "Morning").service_level =
        min 1 (final_capacity StaffingConfig.default 10 150 "E-commerce" 3 / 150)) ∧
    ((150 : ℚ) = 0 →
      (calculate_total_cost StaffingConfig.default 10 150 "E-commerce" 3
          "Morning").service_level = 1)) :=
  ⟨by norm_num, by norm_num,
    cost_components_sum_and_service_level StaffingConfig.default 10 150
      "E-commerce" "Morning" 3 (by norm_num) (by norm_num)⟩

/-- C7: For every configuration, positive staff_count and non-negative
forecast_volume: regular_cost = staff_count * 8 * REGULAR_RATE, independent of
the absenteeism rate; when forecast_volume exceeds base capacity,
overtime_hours = min(staff_count * 4, shortage / base_productivity) and
overtime_cost = overtime_hours * OVERTIME_RATE; otherwise both are 0. -/
theorem regular_and_overtime_cost_formulas (cfg : StaffingConfig)
    (staff_count : ℕ) (forecast_volume : ℚ) (order_type shift : String)
    (date : Fin 7) (hs : 0 < staff_count) (hv : 0 ≤ forecast_volume) :
    (calculate_total_cost cfg staff_count forecast_volume order_type date
        shift).regular_cost = (staff_count : ℚ) * 8 * cfg.REGULAR_RATE ∧
    (total_capacity cfg staff_count order_type date < forecast_volume →
      (calculate_total_cost cfg staff_count forecast_volume order_type date
          shift).overtime_hours =
        min ((staff_count : ℚ) * 4)
          ((forecast_volume - total_capacity cfg staff_count order_type date) /
            productivity_rate order_type) ∧
      (calculate_total_cost cfg staff_count forecast_volume order_type date
          shift).overtime_cost =
        (calculate_total_cost cfg staff_count forecast_volume order_type date
            shift).overtime_hours * cfg.OVERTIME_RATE) ∧
    (¬ total_capacity cfg staff_count order_type date < forecast_volume →
      (calculate_total_cost cfg staff_count forecast_volume order_type date
          shift).overtime_hours = 0 ∧
      (calculate_total_cost cfg staff_count forecast_volume order_type date
          shift).overtime_cost = 0) := by
  refine ⟨rfl, ?_, ?_⟩
  · intro h
    constructor
    · show overtime_hours cfg staff_count forecast_volume order_type date = _
      unfold overtime_hours
      rw [if_pos h]
    · show (if total_capacity cfg staff_count order_type date < forecast_volume
          then overtime_hours cfg staff_count forecast_volume order_type date *
            cfg.OVERTIME_RATE
          else 0) = _
      rw [if_pos h]
      rfl
  · intro h
    constructor
    · show overtime_hours cfg staff_count forecast_volume order_type date = 0
      unfold overtime_hours
      rw [if_neg h]
    · show (if total_capacity cfg staff_count order_type date < forecast_volume
          then overtime_hours cfg staff_count forecast_volume order_type date *
            cfg.OVERTIME_RATE
          else 0) = 0
      rw [if_neg h]

theorem regular_and_overtime_cost_formulas_witness :
    0 < 10 ∧ (0 : ℚ) ≤ 150 ∧
    ((calculate_total_cost StaffingConfig.default 10 150 "E-commerce" 3
        "Morning").regular_cost =
      (10 : ℚ) * 8 * StaffingConfig.default.REGULAR_RATE ∧
    (total_capacity StaffingConfig.default 10 "E-commerce" 3 < 150 →
      (calculate_total_cost StaffingConfig.default 10 150 "E-commerce" 3
          "Morning").overtime_hours =
        min ((10 : ℚ) * 4)
          ((150 - total_capacity StaffingConfig.default 10 "E-commerce" 3) /
            productivity_rate "E-commerce") ∧
      (calculate_total_cost StaffingConfig.default 10 150 "E-commerce" 3
          "Morning").overtime_cost =
        (calculate_total_cost StaffingConfig.default 10 150 "E-commerce" 3
            "Morning").overtime_hours * StaffingConfig.default.OVERTIME_RATE) ∧
    (¬ total_capacity StaffingConfig.default 10 "E-commerce" 3 < 150 →
      (calculate_total_cost StaffingConfig.default 10 150 "E-commerce" 3
          "Morning").overtime_hours = 0 ∧
      (calculate_total_cost StaffingConfig.default 10 150 "E-commerce" 3
          "Morning").overtime_cost = 0)) :=
  ⟨by norm_num, by norm_num,
    regular_and_overtime_cost_formulas StaffingConfig.default 10 150
      "E-commerce" "Morning" 3 (by norm_num) (by norm_num)⟩

/-! ## Monotonicity of capacity and service level (default configuration) -/

lemma pyInt_mono {a b : ℚ} (h : a ≤ b) : pyInt a ≤ pyInt b := by
  unfold pyInt
  rcases lt_or_le a 0 with ha | ha
  · rcases lt_or_le b 0 with hb | hb
    · rw [if_pos ha, if_pos hb]
      exact neg_le_neg (Int.floor_le_floor (by linarith))
    · rw [if_pos ha, if_neg (not_lt.mpr hb)]
      have h1 : (0 : ℤ) ≤ ⌊-a⌋ := Int.floor_nonneg.mpr (by linarith)
      have h2 : (0 : ℤ) ≤ ⌊b⌋ := Int.floor_nonneg.mpr hb
      omega
  · rw [if_neg (not_lt.mpr ha), if_neg (not_lt.mpr (le_trans ha h))]
    exact Int.floor_le_floor h

lemma pyInt_nonpos {a : ℚ} (h : a ≤ 0) : pyInt a ≤ 0 := by
  unfold pyInt
  rcases lt_or_le a 0 with ha | ha
  · rw [if_pos ha]
    have : (0 : ℤ) ≤ ⌊-a⌋ := Int.floor_nonneg.mpr (by linarith)
    omega
  · rw [if_neg (not_lt.mpr ha)]
    have ha0 : a = 0 := le_antisymm h ha
    rw [ha0]
    norm_num

lemma productivity_rate_pos (order_type : String) :
    0 < productivity_rate order_type := by
  unfold productivity_rate
  split_ifs <;> norm_num

lemma default_absenteeism_lt_one (d : Fin 7) :
    StaffingConfig.default.ABSENTEEISM_RATES d < 1 := by
  fin_cases d <;> norm_num [StaffingConfig.default]

lemma total_capacity_eq (cfg : StaffingConfig) (s : ℕ) (ot : String) (d : Fin 7) :
    total_capacity cfg s ot d =
      (s : ℚ) * ((1 - cfg.ABSENTEEISM_RATES d) * (1 - cfg.BREAK_COVERAGE_FACTOR) *
        productivity_rate ot) := by
  unfold total_capacity productive_staff effective_staff
  ring

lemma default_capacity_coeff_nonneg (d : Fin 7) (ot : String) :
    0 ≤ (1 - StaffingConfig.default.ABSENTEEISM_RATES d) *
        (1 - StaffingConfig.default.BREAK_COVERAGE_FACTOR) *
        productivity_rate ot := by
  have h1 : 0 ≤ 1 - StaffingConfig.default.ABSENTEEISM_RATES d := by
    have := default_absenteeism_lt_one d
    linarith
  have h2 : 0 ≤ 1 - StaffingConfig.default.BREAK_COVERAGE_FACTOR := by
    norm_num [StaffingConfig.default]
  exact mul_nonneg (mul_nonneg h1 h2) (le_of_lt (productivity_rate_pos ot))

lemma total_capacity_mono {s1 s2 : ℕ} (h : s1 ≤ s2) (ot : String) (d : Fin 7) :
    total_capacity StaffingConfig.default s1 ot d ≤
      total_capacity StaffingConfig.default s2 ot d := by
  rw [total_capacity_eq, total_capacity_eq]
  exact mul_le_mul_of_nonneg_right (by exact_mod_cast h)
    (default_capacity_coeff_nonneg d ot)

lemma final_capacity_closed_form (cfg : StaffingConfig) (s : ℕ) (v : ℚ)
    (ot : String) (d : Fin 7) :
    final_capacity cfg s v ot d =
      if total_capacity cfg s ot d < v then
        min (total_capacity cfg s ot d + (s : ℚ) * 4 * productivity_rate ot) v
      else total_capacity cfg s ot d := by
  have hbp := productivity_rate_pos ot
  unfold final_capacity overtime_hours
  split_ifs with h
  · rw [min_mul_of_nonneg _ _ (le_of_lt hbp),
      div_mul_cancel₀ _ (ne_of_gt hbp), ← min_add_add_left]
    have hv : total_capacity cfg s ot d + (v - total_capacity cfg s ot d) = v := by
      ring
    rw [hv]
  · rw [zero_mul, add_zero]

lemma final_capacity_mono {s1 s2 : ℕ} (h : s1 ≤ s2) (v : ℚ) (ot : String)
    (d : Fin 7) :
    final_capacity StaffingConfig.default s1 v ot d ≤
      final_capacity StaffingConfig.default s2 v ot d := by
  have hbp := productivity_rate_pos ot
  have htc := total_capacity_mono h ot d
  have hot : (s1 : ℚ) * 4 * productivity_rate ot ≤
      (s2 : ℚ) * 4 * productivity_rate ot := by
    have hcast : (s1 : ℚ) ≤ (s2 : ℚ) := by exact_mod_cast h
    have h4 : (s1 : ℚ) * 4 ≤ (s2 : ℚ) * 4 := by linarith
    exact mul_le_mul_of_nonneg_right h4 (le_of_lt hbp)
  rw [final_capacity_closed_form, final_capacity_closed_form]
  split_ifs with h1 h2 h2
  · exact min_le_min (by linarith) le_rfl
  · exact le_trans (min_le_right _ _) (not_lt.mp h2)
  · exact absurd h2 (not_lt.mpr (le_trans (not_lt.mp h1) htc))
  · exact htc

/-- C4: For fixed forecast_volume, date, shift and order_type under the default
configuration, service_level is non-decreasing in staff_count. -/
theorem service_level_monotone_in_staff (forecast_volume : ℚ)
    (order_type shift : String) (date : Fin 7) (s1 s2 : ℕ)
    (h0 : 0 < s1) (h : s1 ≤ s2) :
    (calculate_total_cost StaffingConfig.default s1 forecast_volume order_type
        date shift).service_level ≤
      (calculate_total_cost StaffingConfig.default s2 forecast_volume order_type
          date shift).service_level := by
  show (if 0 < forecast_volume then
      min 1 (final_capacity StaffingConfig.default s1 forecast_volume order_type
        date / forecast_volume) else 1) ≤
    (if 0 < forecast_volume then
      min 1 (final_capacity StaffingConfig.default s2 forecast_volume order_type
        date / forecast_volume) else 1)
  split_ifs with hv
  · refine min_le_min le_rfl ?_
    exact (div_le_div_right hv).mpr (final_capacity_mono h forecast_volume _ _)
  · exact le_rfl

theorem service_level_monotone_in_staff_witness :
    0 < 3 ∧ 3 ≤ 5 ∧
    (calculate_total_cost StaffingConfig.default 3 150 "E-commerce" 0
        "Morning").service_level ≤
      (calculate_total_cost StaffingConfig.default 5 150 "E-commerce" 0
          "Morning").service_level :=
  ⟨by norm_num, by norm_num,
    service_level_monotone_in_staff 150 "E-commerce" "Morning" 0 3 5
      (by norm_num) (by norm_num)⟩

/-! ## Skills penalty under the default configuration -/

lemma skills_required_le_available {s : ℕ} {f : ℚ} (h6 : f ≤ 0.6) :
    max (1 : ℤ) (pyInt ((s : ℚ) * f)) ≤ max 1 (pyInt ((s : ℚ) * 0.6)) := by
  refine max_le_max (le_refl 1) (pyInt_mono ?_)
  exact mul_le_mul_of_nonneg_left h6 (by positivity)

/-- C10: Under the default configuration (skill fractions 0.30, 0.15, 0.10, 0.60
against the fixed 60% availability heuristic) the skills penalty is 0 for every
staff_count ≥ 1, since max(1, int(staff * f)) never exceeds
max(1, int(staff * 0.6)) for f ≤ 0.6; consequently every CostBreakdown carries a
zero skills_penalty. -/
theorem skills_penalty_always_zero_default (s : ℕ) (hs : 1 ≤ s) :
    calculate_skills_penalty StaffingConfig.default s = 0 ∧
    ∀ (forecast_volume : ℚ) (order_type shift : String) (date : Fin 7),
      (calculate_total_cost StaffingConfig.default s forecast_volume order_type
          date shift).skills_penalty = 0 := by
  have key : calculate_skills_penalty StaffingConfig.default s = 0 := by
    unfold calculate_skills_penalty
    simp only [StaffingConfig.default, List.foldl_cons, List.foldl_nil]
    rw [if_neg (not_lt.mpr (skills_required_le_available (by norm_num))),
      if_neg (not_lt.mpr (skills_required_le_available (by norm_num))),
      if_neg (not_lt.mpr (skills_required_le_available (by norm_num))),
      if_neg (not_lt.mpr (skills_required_le_available (by norm_num)))]
  refine ⟨key, ?_⟩
  intro forecast_volume order_type shift date
  show calculate_skills_penalty StaffingConfig.default s = 0
  exact key

theorem skills_penalty_always_zero_default_witness :
    1 ≤ 10 ∧
    (calculate_skills_penalty StaffingConfig.default 10 = 0 ∧
    ∀ (forecast_volume : ℚ) (order_type shift : String) (date : Fin 7),
      (calculate_total_cost StaffingConfig.default 10 forecast_volume order_type
          date shift).skills_penalty = 0) :=
  ⟨by norm_num, skills_penalty_always_zero_default 10 (by norm_num)⟩

/-! ## Forecast record bounds -/

/-- Counterexample to C6 as stated: at raw prediction 21/2 = 10.5, the emitted
record has Uncertainty = 10.5 * 0.15 = 1.575 while 0.15 times its ForecastVolume
(= max(0, int(10.5)) = 10) is 1.5. -/
theorem forecast_uncertainty_not_volume_based :
    ¬ ((mkForecastRecord 0 "Morning" "E-commerce" (21/2)).Uncertainty =
        0.15 * (((mkForecastRecord 0 "Morning" "E-commerce"
          (21/2)).ForecastVolume : ℚ))) := by
  show ¬ ((21/2 : ℚ) * 0.15 = 0.15 * ((max 0 (pyInt (21/2)) : ℤ) : ℚ))
  have hp : pyInt (21/2 : ℚ) = 10 := by
    unfold pyInt
    rw [if_neg (by norm_num)]
    norm_num
  rw [hp]
  norm_num

/-- C6 amended: every record emitted by `forecast_demand` satisfies
0 ≤ LowerBound ≤ ForecastVolume ≤ UpperBound, with Uncertainty equal to 0.15
times the raw model prediction (before truncation and flooring), and
LowerBound/UpperBound equal to max(0, int(prediction ∓ uncertainty)). -/
theorem forecast_bounds_ordered (date : Fin 7) (shift order_type : String)
    (prediction : ℚ) :
    0 ≤ (mkForecastRecord date shift order_type prediction).LowerBound ∧
    (mkForecastRecord date shift order_type prediction).LowerBound ≤
      (mkForecastRecord date shift order_type prediction).ForecastVolume ∧
    (mkForecastRecord date shift order_type prediction).ForecastVolume ≤
      (mkForecastRecord date shift order_type prediction).UpperBound ∧
    (mkForecastRecord date shift order_type prediction).Uncertainty =
      prediction * 0.15 ∧
    (mkForecastRecord date shift order_type prediction).LowerBound =
      max 0 (pyInt (prediction - prediction * 0.15)) ∧
    (mkForecastRecord date shift order_type prediction).UpperBound =
      max 0 (pyInt (prediction + prediction * 0.15)) := by
  refine ⟨le_max_left 0 _, ?_, ?_, rfl, rfl, rfl⟩
  · show max 0 (pyInt (prediction - prediction * 0.15)) ≤ max 0 (pyInt prediction)
    rcases le_or_lt 0 prediction with hp | hp
    · exact max_le_max le_rfl (pyInt_mono (by linarith))
    · rw [max_eq_left (pyInt_nonpos (by linarith))]
      exact le_max_left 0 _
  · show max 0 (pyInt prediction) ≤ max 0 (pyInt (prediction + prediction * 0.15))
    rcases le_or_lt 0 prediction with hp | hp
    · exact max_le_max le_rfl (pyInt_mono (by linarith))
    · rw [max_eq_left (pyInt_nonpos (by linarith))]
      exact le_max_left 0 _

/-! ## Training threshold -/

/-- C8: a (shift, order_type) segment obtains a trained model iff its usable
(post-`dropna`) row count is at least 20; in particular a segment with exactly
20 usable rows is trained and one with 19 is not, and skipped segments produce
no error (the training map is total). -/
theorem trained_iff_enough_usable_rows :
    (∀ (segments : List ((String × String) × ℕ)) (key : String × String),
      key ∈ train_models segments ↔ ∃ n, (key, n) ∈ segments ∧ 20 ≤ n) ∧
    train_models [(("Morning", "E-commerce"), 20)] = [("Morning", "E-commerce")] ∧
    train_models [(("Morning", "E-commerce"), 19)] = [] ∧
    usable_rows 27 = 20 ∧ usable_rows 26 = 19 := by
  refine ⟨?_, rfl, rfl, rfl, rfl⟩
  intro segments key
  unfold train_models
  constructor
  · intro h
    rcases List.mem_map.mp h with ⟨g, hg, hkey⟩
    rcases List.mem_filter.mp hg with ⟨hmem, hcond⟩
    refine ⟨g.2, ?_, ?_⟩
    · rw [← hkey]
      exact hmem
    · have : ¬ g.2 < 20 := by simpa using hcond
      omega
  · rintro ⟨n, hmem, hn⟩
    refine List.mem_map.mpr ⟨(key, n), List.mem_filter.mpr ⟨hmem, ?_⟩, rfl⟩
    simpa using not_lt.mpr hn

/-! ## Configuration construction -/

/-- Counterexample to C9 as stated: constructing settings with a negative
regular rate and inverted staff bounds (min 5 > max 2) succeeds — nothing in
`StaffingSettings` (or the constants class `StaffingConfig`) validates bounds
or rate signs at construction time. -/
theorem settings_construction_accepts_invalid :
    mkStaffingSettings (-1) 1.5 22 0.98 150 5 2 0.2 =
      .ok ⟨-1, 1.5, 22, 0.98, 150, 5, 2, 0.2⟩ := rfl

/-- The default configuration with inverted staff bounds, as a caller could
obtain from unvalidated settings. -/
def cfgInverted : StaffingConfig :=
  { StaffingConfig.default with MIN_STAFF_PER_SHIFT := 5, MAX_STAFF_PER_SHIFT := 2 }

/-- C9 amended: configuration construction performs no eager validation —
inverted staff bounds and zero/negative rates are stored as given — and an
inverted-bounds configuration instead surfaces during the search, where
`optimize_shift_staffing` fails (returns no result: the Python code raises while
building the result dict from an empty staff range). -/
theorem settings_unvalidated_failure_surfaces_in_search :
    (∀ (a b c d e : ℚ) (f g : ℤ) (h : ℚ),
      mkStaffingSettings a b c d e f g h = .ok ⟨a, b, c, d, e, f, g, h⟩) ∧
    (∀ (cfg : StaffingConfig) (r : ForecastRecord),
      cfg.MAX_STAFF_PER_SHIFT < cfg.MIN_STAFF_PER_SHIFT →
      optimize_shift_staffing cfg r = none) := by
  refine ⟨fun a b c d e f g h => rfl, ?_⟩
  intro cfg r h
  have hempty : staffRange cfg = [] := by
    unfold staffRange
    have hn : cfg.MAX_STAFF_PER_SHIFT + 1 - cfg.MIN_STAFF_PER_SHIFT = 0 := by omega
    rw [hn, List.range'_zero]
  unfold optimize_shift_staffing finalState passOne passTwo
  rw [hempty]
  simp [searchInit, mkResultFrom]

theorem settings_unvalidated_failure_surfaces_in_search_witness :
    mkStaffingSettings (-1) 1.5 22 0.98 150 5 2 0.2 =
      .ok ⟨-1, 1.5, 22, 0.98, 150, 5, 2, 0.2⟩ ∧
    cfgInverted.MAX_STAFF_PER_SHIFT < cfgInverted.MIN_STAFF_PER_SHIFT ∧
    optimize_shift_staffing cfgInverted recFeasible = none :=
  ⟨settings_unvalidated_failure_surfaces_in_search.1 (-1) 1.5 22 0.98 150 5 2 0.2,
    by norm_num [cfgInverted],
    settings_unvalidated_failure_surfaces_in_search.2 cfgInverted recFeasible
      (by norm_num [cfgInverted])⟩
